import Mathlib

/-!
Shallow embedding of the geometry-normalization core of `streamlit_app.py`
(coordinate rounding, polygon ring orientation fixing, precision and
orientation auditing).  Ordinates are modelled as exact rationals; the
`float(f"{x:.{p}f}")` format-then-reparse step becomes exact decimal
rounding (round half to even) to `p` fractional digits.
-/

namespace RoundedRHR

/-- A coordinate tuple `(x, y[, z])` as handled by `round_coords`. -/
structure Coord where
  x : ℚ
  y : ℚ
  z : Option ℚ
deriving DecidableEq, Repr

/-- A ring or coordinate sequence. -/
abbrev Ring := List Coord

/-- A shapely `Polygon`: one exterior ring plus interior rings (holes). -/
structure Poly where
  exterior : Ring
  interiors : List Ring
deriving DecidableEq, Repr

/-- The shapely geometry variants that flow through the app; a record's
geometry may also be `None`, modelled as `Option Geometry` at call sites. -/
inductive Geometry where
  | point : Coord → Geometry
  | lineString : List Coord → Geometry
  | polygon : Poly → Geometry
  | multiPoint : List Coord → Geometry
  | multiLineString : List (List Coord) → Geometry
  | multiPolygon : List Poly → Geometry
  | geometryCollection : List Geometry → Geometry
deriving Repr

/-- Cross term of the shoelace formula for consecutive vertices. -/
def cross (a b : Coord) : ℚ := a.x * b.y - b.x * a.y

/-- Shoelace sum over consecutive vertex pairs of a (closed) ring. -/
def shoelace : List Coord → ℚ
  | a :: b :: rest => cross a b + shoelace (b :: rest)
  | _ => 0

/-- Signed area of a ring (shapely `signed_area`, shoelace formula). -/
def signed_area (r : Ring) : ℚ := shoelace r / 2

/-- shapely `is_ccw`: positive signed area. -/
def is_ccw (r : Ring) : Bool := decide (0 < signed_area r)

/-- Unsigned area of one ring (GEOS `Area.ofRing`). -/
def ringArea (r : Ring) : ℚ := |signed_area r|

/-- shapely `Polygon.area`: shell area minus hole areas. -/
def Poly.area (p : Poly) : ℚ := ringArea p.exterior - (p.interiors.map ringArea).sum

/-- Model of `shapely.geometry.polygon.orient` with `sign=1.0`: keep the exterior if
its signed area is nonnegative, else reverse it; keep a hole if its signed
area is nonpositive, else reverse it. -/
def orient (p : Poly) : Poly where
  exterior := if 0 ≤ signed_area p.exterior then p.exterior else p.exterior.reverse
  interiors := p.interiors.map (fun r => if signed_area r ≤ 0 then r else r.reverse)

/-- Python `max(geoms, key=lambda p: p.area)`: first member of maximal area;
`none` models the `ValueError` raised on an empty sequence. -/
def maxByArea : List Poly → Option Poly
  | [] => none
  | p :: ps => some (ps.foldl (fun best q => if best.area < q.area then q else best) p)

mutual

/-- shapely `is_empty`: no coordinates anywhere in the geometry. -/
def Geometry.is_empty : Geometry → Bool
  | .point _ => false
  | .lineString cs => cs.isEmpty
  | .polygon p => p.exterior.isEmpty
  | .multiPoint cs => cs.isEmpty
  | .multiLineString ls => ls.all List.isEmpty
  | .multiPolygon ps => ps.all (fun p => p.exterior.isEmpty)
  | .geometryCollection gs => Geometry.is_emptyL gs

/-- Conjunction of `is_empty` over the members of a collection. -/
def Geometry.is_emptyL : List Geometry → Bool
  | [] => true
  | g :: gs => g.is_empty && Geometry.is_emptyL gs

end

/-! ### fix_cw_to_ccw

The Python function wraps its whole body in `try/except`: an exception from
the orientation primitive is caught, reported via `st.error`, and the
original geometry is returned.  The primitive that the library may raise
from is passed as an `Except`-valued parameter `o`; the real shapely
`orient` never fails in the rational model (`orientE`). -/

/-- The list comprehension `[orient(poly, sign=1.0) for poly in geom.geoms]`
with a possibly-raising orientation primitive. -/
def mapOrient (o : Poly → Except String Poly) : List Poly → Except String (List Poly)
  | [] => .ok []
  | p :: ps =>
    match o p with
    | .error e => .error e
    | .ok q =>
      match mapOrient o ps with
      | .error e => .error e
      | .ok qs => .ok (q :: qs)

/-- Body of the `try` block of `fix_cw_to_ccw`: `None` and empty geometries
pass through; Polygon and MultiPolygon are reoriented; everything else
(including GeometryCollection) falls into the final `else` unchanged. -/
def fixBody (o : Poly → Except String Poly) (g : Option Geometry) :
    Except String (Option Geometry) :=
  match g with
  | none => .ok none
  | some g =>
    if g.is_empty then .ok (some g)
    else
      match g with
      | .polygon p => (o p).map (fun q => some (.polygon q))
      | .multiPolygon ps => (mapOrient o ps).map (fun qs => some (.multiPolygon qs))
      | g => .ok (some g)

/-- The `except` clause: report and return the original geometry. -/
def fixGuard (o : Poly → Except String Poly) (g : Option Geometry) : Option Geometry :=
  match fixBody o g with
  | .ok g' => g'
  | .error _ => g

/-- The shapely `orient` call, which does not raise in the rational model. -/
def orientE : Poly → Except String Poly := fun p => .ok (orient p)

/-- The function `fix_cw_to_ccw` of `streamlit_app.py`. -/
def fix_cw_to_ccw (g : Option Geometry) : Option Geometry := fixGuard orientE g

/-! ### Orientation audit (`check_orientation_stats`) -/

/-- Result of classifying one record's geometry. -/
inductive Orientation where
  | ccw
  | cw
  | other
deriving DecidableEq, Repr

/-- Tallies kept by `check_orientation_stats`. -/
structure OrientationStats where
  ccw : ℕ
  cw : ℕ
  other : ℕ
deriving DecidableEq, Repr

/-- One iteration of the `for geom in gdf["geometry"]` loop: Polygon by its
exterior winding, MultiPolygon by the winding of its largest-area member,
everything else (including a `None` geometry) tallied as other.  `none`
models the `ValueError` from `max` on an empty member sequence. -/
def classify : Option Geometry → Option Orientation
  | some (.polygon p) => some (if is_ccw p.exterior then .ccw else .cw)
  | some (.multiPolygon ps) =>
      match maxByArea ps with
      | some p => some (if is_ccw p.exterior then .ccw else .cw)
      | none => none
  | _ => some .other

/-- Increment the tally chosen by the classification. -/
def tally (s : OrientationStats) : Orientation → OrientationStats
  | .ccw => { s with ccw := s.ccw + 1 }
  | .cw => { s with cw := s.cw + 1 }
  | .other => { s with other := s.other + 1 }

/-- The counting loop of `check_orientation_stats`. -/
def statsLoop : OrientationStats → List (Option Geometry) → Option OrientationStats
  | s, [] => some s
  | s, g :: gs =>
    match classify g with
    | some o => statsLoop (tally s o) gs
    | none => none

/-- The function `check_orientation_stats` over the geometry column of a collection. -/
def check_orientation_stats (gs : List (Option Geometry)) : Option OrientationStats :=
  statsLoop ⟨0, 0, 0⟩ gs

/-! ### Coordinate rounding (`round_coordinates`) -/

/-- Round half to even to the nearest integer, the rounding used by Python's
fixed-precision float formatting. -/
def rnd (q : ℚ) : ℤ :=
  if Int.fract q < 1 / 2 then ⌊q⌋
  else if 1 / 2 < Int.fract q then ⌊q⌋ + 1
  else if ⌊q⌋ % 2 = 0 then ⌊q⌋ else ⌊q⌋ + 1

/-- One ordinate of `round_coords`: `float(f"{x:.{p}f}")`, i.e. exact
decimal rounding to `p` fractional digits. -/
def roundOrd (p : ℕ) (x : ℚ) : ℚ := (rnd (x * 10 ^ p) : ℚ) / 10 ^ p

/-- The `round_coords` callback: each ordinate rounded independently,
dimensionality preserved. -/
def roundCoord (p : ℕ) (c : Coord) : Coord :=
  { x := roundOrd p c.x, y := roundOrd p c.y, z := c.z.map (roundOrd p) }

/-- Application of `roundCoord` over one polygon's rings. -/
def roundPoly (p : ℕ) (q : Poly) : Poly :=
  { exterior := q.exterior.map (roundCoord p)
  , interiors := q.interiors.map (List.map (roundCoord p)) }

mutual

/-- Model of `shapely.ops.transform(round_coords, geom)`: apply the coordinate
callback to every coordinate tuple, recursively. -/
def roundGeom (p : ℕ) : Geometry → Geometry
  | .point c => .point (roundCoord p c)
  | .lineString cs => .lineString (cs.map (roundCoord p))
  | .polygon q => .polygon (roundPoly p q)
  | .multiPoint cs => .multiPoint (cs.map (roundCoord p))
  | .multiLineString ls => .multiLineString (ls.map (List.map (roundCoord p)))
  | .multiPolygon qs => .multiPolygon (qs.map (roundPoly p))
  | .geometryCollection gs => .geometryCollection (roundGeomL p gs)

/-- The transform applied over the members of a collection. -/
def roundGeomL (p : ℕ) : List Geometry → List Geometry
  | [] => []
  | g :: gs => roundGeom p g :: roundGeomL p gs

end

/-- The function `round_coordinates` of `streamlit_app.py`: `None` passes through. -/
def round_coordinates (g : Option Geometry) (precision : ℕ) : Option Geometry :=
  match g with
  | none => none
  | some g => some (roundGeom precision g)

/-! ### Precision audit (`check_coordinate_precision`) -/

/-- The ordinates a coordinate tuple contributes to the WKT text. -/
def Coord.ords (c : Coord) : List ℚ :=
  match c.z with
  | none => [c.x, c.y]
  | some z => [c.x, c.y, z]

/-- Concatenation of `Coord.ords` over a coordinate sequence. -/
def ordsOfList (cs : List Coord) : List ℚ := (cs.map Coord.ords).flatten

mutual

/-- Every ordinate appearing in the WKT rendering of a geometry, i.e. the
numbers the regex of `check_coordinate_precision` extracts. -/
def Geometry.ords : Geometry → List ℚ
  | .point c => c.ords
  | .lineString cs => ordsOfList cs
  | .polygon q => ordsOfList q.exterior ++ (q.interiors.map ordsOfList).flatten
  | .multiPoint cs => ordsOfList cs
  | .multiLineString ls => (ls.map ordsOfList).flatten
  | .multiPolygon qs =>
      (qs.map (fun q => ordsOfList q.exterior ++ (q.interiors.map ordsOfList).flatten)).flatten
  | .geometryCollection gs => Geometry.ordsL gs

/-- Concatenation of `ords` over the members of a collection. -/
def Geometry.ordsL : List Geometry → List ℚ
  | [] => []
  | g :: gs => g.ords ++ Geometry.ordsL gs

end

/-- The rendered fractional part of `x` has more than `p` digits: `x` is not
an integer multiple of `10 ^ (-p)`. -/
def exceedsOrd (p : ℕ) (x : ℚ) : Bool := (x * 10 ^ p).den ≠ 1

/-- The function `check_coordinate_precision` of `streamlit_app.py`: `None` is `False`;
otherwise true iff some rendered ordinate has more than `max_decimals`
fractional digits. -/
def check_coordinate_precision (g : Option Geometry) (max_decimals : ℕ) : Bool :=
  match g with
  | none => false
  | some g => g.ords.any (exceedsOrd max_decimals)

/-! ### Structural measures (variant tag, vertex count, ring count) -/

/-- The variant tag of a record's geometry (`None` included). -/
inductive GeomTag where
  | point
  | lineString
  | polygon
  | multiPoint
  | multiLineString
  | multiPolygon
  | geometryCollection
  | null
deriving DecidableEq, Repr

/-- Variant tag of an optional geometry. -/
def tagOf : Option Geometry → GeomTag
  | none => .null
  | some (.point _) => .point
  | some (.lineString _) => .lineString
  | some (.polygon _) => .polygon
  | some (.multiPoint _) => .multiPoint
  | some (.multiLineString _) => .multiLineString
  | some (.multiPolygon _) => .multiPolygon
  | some (.geometryCollection _) => .geometryCollection

/-- Vertices of one polygon, closing points included. -/
def polyVertexCount (q : Poly) : ℕ :=
  q.exterior.length + (q.interiors.map List.length).sum

mutual

/-- Total number of coordinate tuples of a geometry. -/
def Geometry.vertexCount : Geometry → ℕ
  | .point _ => 1
  | .lineString cs => cs.length
  | .polygon q => polyVertexCount q
  | .multiPoint cs => cs.length
  | .multiLineString ls => (ls.map List.length).sum
  | .multiPolygon qs => (qs.map polyVertexCount).sum
  | .geometryCollection gs => Geometry.vertexCountL gs

/-- Sum of `vertexCount` over the members of a collection. -/
def Geometry.vertexCountL : List Geometry → ℕ
  | [] => 0
  | g :: gs => g.vertexCount + Geometry.vertexCountL gs

end

mutual

/-- Number of rings of a geometry. -/
def Geometry.ringCount : Geometry → ℕ
  | .point _ => 0
  | .lineString _ => 0
  | .polygon q => 1 + q.interiors.length
  | .multiPoint _ => 0
  | .multiLineString _ => 0
  | .multiPolygon qs => (qs.map (fun q => 1 + q.interiors.length)).sum
  | .geometryCollection gs => Geometry.ringCountL gs

/-- Sum of `ringCount` over the members of a collection. -/
def Geometry.ringCountL : List Geometry → ℕ
  | [] => 0
  | g :: gs => g.ringCount + Geometry.ringCountL gs

end

mutual

/-- All rings of a geometry (exteriors and holes, in order). -/
def Geometry.rings : Geometry → List Ring
  | .point _ => []
  | .lineString _ => []
  | .polygon q => q.exterior :: q.interiors
  | .multiPoint _ => []
  | .multiLineString _ => []
  | .multiPolygon qs => (qs.map (fun q => q.exterior :: q.interiors)).flatten
  | .geometryCollection gs => Geometry.ringsL gs

/-- Concatenation of `rings` over the members of a collection. -/
def Geometry.ringsL : List Geometry → List Ring
  | [] => []
  | g :: gs => g.rings ++ Geometry.ringsL gs

end

/-- A ring is closed: first coordinate tuple equals the last. -/
def ringClosed (r : Ring) : Bool := r.head? = r.getLast?

/-- Total vertex count of a record's geometry (`None` has none). -/
def vertexCountO : Option Geometry → ℕ
  | none => 0
  | some g => g.vertexCount

/-- Ring count of a record's geometry (`None` has none). -/
def ringCountO : Option Geometry → ℕ
  | none => 0
  | some g => g.ringCount

/-! ### Configuration surface -/

/-- The `st.sidebar.slider("Decimal Precision", min_value=1, max_value=15)`
widget: whatever is picked, the returned value lies within the bounds. -/
def precision_slider (choice : ℤ) : ℤ := max 1 (min 15 choice)

/-! ### Concrete geometries used for instantiation -/

/-- The clockwise ring of spec Scenario A, scaled by 10 to integer
coordinates: `(1068,-62),(1068,-61),(1069,-61),(1069,-62),(1068,-62)`. -/
def cwRing : Ring :=
  [⟨1068, -62, none⟩, ⟨1068, -61, none⟩, ⟨1069, -61, none⟩,
   ⟨1069, -62, none⟩, ⟨1068, -62, none⟩]

/-- The same ring reversed (counterclockwise). -/
def ccwRing : Ring := cwRing.reverse

/-- A GeometryCollection holding one clockwise polygon. -/
def gcCW : Geometry := .geometryCollection [.polygon ⟨cwRing, []⟩]

/-- The point of spec Scenario B: `(106.123456789, -6.987654321)`. -/
def ptB : Geometry := .point ⟨106123456789/1000000000, -6987654321/1000000000, none⟩

/-- A small clockwise unit-square ring. -/
def smallCW : Ring :=
  [⟨0, 0, none⟩, ⟨0, 1, none⟩, ⟨1, 1, none⟩, ⟨1, 0, none⟩, ⟨0, 0, none⟩]

/-- A large counterclockwise square ring (side 10). -/
def bigCCW : Ring :=
  [⟨20, 20, none⟩, ⟨30, 20, none⟩, ⟨30, 30, none⟩, ⟨20, 30, none⟩, ⟨20, 20, none⟩]

/-- Scenario C: one large CCW member and one small CW member. -/
def mixedMP : List Poly := [⟨bigCCW, []⟩, ⟨smallCW, []⟩]

/-- The nondegeneracy hypothesis of the orientation postcondition: a Polygon
whose exterior ring has nonzero signed area, or a nonempty MultiPolygon all
of whose members' exterior rings have nonzero signed area. -/
def nondegenerate : Geometry → Bool
  | .polygon q => decide (signed_area q.exterior ≠ 0)
  | .multiPolygon ps => !ps.isEmpty && ps.all (fun q => decide (signed_area q.exterior ≠ 0))
  | _ => false

/-- A record the orientation audit can process without raising: `None`,
non-polygonal, or polygonal and non-empty. -/
def auditable : Option Geometry → Bool
  | some (.polygon q) => !(Geometry.polygon q).is_empty
  | some (.multiPolygon ps) => !(Geometry.multiPolygon ps).is_empty
  | _ => true

/-- A mixed geometry column: a Null record, a line, a polygon and a
multipolygon. -/
def auditGs : List (Option Geometry) :=
  [none, some (.lineString [⟨0, 0, none⟩, ⟨1, 1, none⟩]),
   some (.polygon ⟨cwRing, []⟩), some (.multiPolygon mixedMP)]

/-! ## Rounding arithmetic -/

theorem rnd_intCast (z : ℤ) : rnd (z : ℚ) = z := by
  have h : Int.fract (z : ℚ) = 0 := Int.fract_intCast z
  rw [rnd, h]
  norm_num

theorem roundOrd_mul_pow (p : ℕ) (x : ℚ) :
    roundOrd p x * 10 ^ p = (rnd (x * 10 ^ p) : ℚ) := by
  have h : (10 : ℚ) ^ p ≠ 0 := by positivity
  rw [roundOrd, div_mul_cancel₀ _ h]

theorem exceedsOrd_roundOrd (p : ℕ) (x : ℚ) : exceedsOrd p (roundOrd p x) = false := by
  simp [exceedsOrd, roundOrd_mul_pow]

theorem roundOrd_idem (p : ℕ) (x : ℚ) : roundOrd p (roundOrd p x) = roundOrd p x := by
  conv_lhs => rw [roundOrd, roundOrd_mul_pow, rnd_intCast]
  rfl

theorem roundCoord_idem (p : ℕ) (c : Coord) : roundCoord p (roundCoord p c) = roundCoord p c := by
  cases c with
  | mk x y z => cases z <;> simp [roundCoord, roundOrd_idem]

theorem mapRound_idem (p : ℕ) (cs : List Coord) :
    (cs.map (roundCoord p)).map (roundCoord p) = cs.map (roundCoord p) := by
  simp [List.map_map, Function.comp_def, roundCoord_idem]

theorem roundPoly_idem (p : ℕ) (q : Poly) : roundPoly p (roundPoly p q) = roundPoly p q := by
  simp [roundPoly, List.map_map, Function.comp_def, roundCoord_idem]

mutual

theorem roundGeom_idem (p : ℕ) : ∀ g : Geometry, roundGeom p (roundGeom p g) = roundGeom p g
  | .point c => by simp [roundGeom, roundCoord_idem]
  | .lineString cs => by simp [roundGeom, List.map_map, Function.comp_def, roundCoord_idem]
  | .polygon q => by simp [roundGeom, roundPoly_idem]
  | .multiPoint cs => by simp [roundGeom, List.map_map, Function.comp_def, roundCoord_idem]
  | .multiLineString ls => by
      simp [roundGeom, List.map_map, Function.comp_def, roundCoord_idem]
  | .multiPolygon qs => by
      simp [roundGeom, List.map_map, Function.comp_def, roundPoly_idem]
  | .geometryCollection gs => by
      simp [roundGeom, roundGeomL_idem p gs]

theorem roundGeomL_idem (p : ℕ) : ∀ gs : List Geometry,
    roundGeomL p (roundGeomL p gs) = roundGeomL p gs
  | [] => by simp [roundGeomL]
  | g :: gs => by simp [roundGeomL, roundGeom_idem p g, roundGeomL_idem p gs]

end

/-! ## Ordinate tracking for the precision audit -/

theorem coordOrds_round (p : ℕ) (c : Coord) :
    (roundCoord p c).ords = c.ords.map (roundOrd p) := by
  cases c with
  | mk x y z => cases z <;> simp [roundCoord, Coord.ords]

theorem ordsOfList_round (p : ℕ) (cs : List Coord) :
    ordsOfList (cs.map (roundCoord p)) = (ordsOfList cs).map (roundOrd p) := by
  induction cs with
  | nil => simp [ordsOfList]
  | cons c cs ih =>
      simp [ordsOfList, coordOrds_round] at ih ⊢
      exact ih

mutual

theorem ords_roundGeom (p : ℕ) : ∀ g : Geometry,
    (roundGeom p g).ords = g.ords.map (roundOrd p)
  | .point c => by simp [roundGeom, Geometry.ords, coordOrds_round]
  | .lineString cs => by simp [roundGeom, Geometry.ords, ordsOfList_round]
  | .polygon q => by
      simp [roundGeom, Geometry.ords, roundPoly, ordsOfList_round, List.map_map,
        Function.comp_def]
  | .multiPoint cs => by simp [roundGeom, Geometry.ords, ordsOfList_round]
  | .multiLineString ls => by
      simp [roundGeom, Geometry.ords, List.map_map, Function.comp_def, ordsOfList_round]
  | .multiPolygon qs => by
      simp [roundGeom, Geometry.ords, roundPoly, List.map_map, Function.comp_def,
        ordsOfList_round]
  | .geometryCollection gs => by
      simp [roundGeom, Geometry.ords, ords_roundGeomL p gs]

theorem ords_roundGeomL (p : ℕ) : ∀ gs : List Geometry,
    Geometry.ordsL (roundGeomL p gs) = (Geometry.ordsL gs).map (roundOrd p)
  | [] => by simp [roundGeomL, Geometry.ordsL]
  | g :: gs => by
      simp [roundGeomL, Geometry.ordsL, ords_roundGeom p g, ords_roundGeomL p gs]

end

/-- C1: auditing a rounded geometry never flags excess precision. -/
theorem claim1_round_precision (g : Option Geometry) (p : ℕ) (h : 1 ≤ p ∧ p ≤ 15) :
    check_coordinate_precision (round_coordinates g p) p = false := by
  cases g with
  | none => rfl
  | some g =>
    simp [check_coordinate_precision, round_coordinates, ords_roundGeom,
      List.any_map, Function.comp_def, exceedsOrd_roundOrd]

/-- C1 instantiated at Scenario B's point and precision 6. -/
theorem claim1_round_precision_case :
    (1 ≤ 6 ∧ 6 ≤ 15) ∧
      check_coordinate_precision (round_coordinates (some ptB) 6) 6 = false :=
  ⟨by decide, claim1_round_precision (some ptB) 6 ⟨by decide, by decide⟩⟩

/-- C5: rounding twice at the same precision equals rounding once. -/
theorem claim5_round_idem (g : Option Geometry) (p : ℕ) (h : 1 ≤ p ∧ p ≤ 15) :
    round_coordinates (round_coordinates g p) p = round_coordinates g p := by
  cases g with
  | none => rfl
  | some g => simp [round_coordinates, roundGeom_idem]

/-- C5 instantiated at Scenario B's point and precision 4. -/
theorem claim5_round_idem_case :
    (1 ≤ 4 ∧ 4 ≤ 15) ∧
      round_coordinates (round_coordinates (some ptB) 4) 4 = round_coordinates (some ptB) 4 :=
  ⟨by decide, claim5_round_idem (some ptB) 4 ⟨by decide, by decide⟩⟩

/-! ## Ring closure under rounding -/

mutual

theorem rings_roundGeom (p : ℕ) : ∀ g : Geometry,
    (roundGeom p g).rings = g.rings.map (List.map (roundCoord p))
  | .point c => by simp [roundGeom, Geometry.rings]
  | .lineString cs => by simp [roundGeom, Geometry.rings]
  | .polygon q => by simp [roundGeom, Geometry.rings, roundPoly]
  | .multiPoint cs => by simp [roundGeom, Geometry.rings]
  | .multiLineString ls => by simp [roundGeom, Geometry.rings]
  | .multiPolygon qs => by
      simp [roundGeom, Geometry.rings, roundPoly, List.map_map, Function.comp_def]
  | .geometryCollection gs => by
      simp [roundGeom, Geometry.rings, rings_roundGeomL p gs]

theorem rings_roundGeomL (p : ℕ) : ∀ gs : List Geometry,
    Geometry.ringsL (roundGeomL p gs) = (Geometry.ringsL gs).map (List.map (roundCoord p))
  | [] => by simp [roundGeomL, Geometry.ringsL]
  | g :: gs => by
      simp [roundGeomL, Geometry.ringsL, rings_roundGeom p g, rings_roundGeomL p gs]

end

theorem ringClosed_map (f : Coord → Coord) (r : Ring) (h : ringClosed r = true) :
    ringClosed (r.map f) = true := by
  simp [ringClosed] at h ⊢
  rw [h]

/-- C6: if every ring of the input is closed, every ring of the rounded
geometry is closed (first coordinate tuple equals last, exactly). -/
theorem claim6_ring_closure (g : Geometry) (p : ℕ)
    (h : ∀ r ∈ g.rings, ringClosed r = true) :
    ∀ g' ∈ round_coordinates (some g) p, ∀ r ∈ g'.rings, ringClosed r = true := by
  intro g' hg' r hr
  have hg : g' = roundGeom p g := by
    simpa [round_coordinates, eq_comm] using hg'
  subst hg
  rw [rings_roundGeom] at hr
  obtain ⟨r0, hr0, rfl⟩ := List.mem_map.mp hr
  exact ringClosed_map _ r0 (h r0 hr0)

/-- C6 instantiated at Scenario A's polygon and precision 1. -/
theorem claim6_ring_closure_case :
    (∀ r ∈ (Geometry.polygon ⟨cwRing, []⟩).rings, ringClosed r = true) ∧
      ∀ g' ∈ round_coordinates (some (Geometry.polygon ⟨cwRing, []⟩)) 1,
        ∀ r ∈ g'.rings, ringClosed r = true :=
  ⟨by decide, claim6_ring_closure _ 1 (by decide)⟩

/-! ## fix_cw_to_ccw evaluation -/

theorem mapOrient_ok (ps : List Poly) : mapOrient orientE ps = .ok (ps.map orient) := by
  induction ps with
  | nil => rfl
  | cons q ps ih => simp [mapOrient, orientE, ih]

theorem fix_empty (g : Geometry) (h : g.is_empty = true) :
    fix_cw_to_ccw (some g) = some g := by
  cases g <;> simp [fix_cw_to_ccw, fixGuard, fixBody, h]

theorem fix_polygon (q : Poly) (h : (Geometry.polygon q).is_empty = false) :
    fix_cw_to_ccw (some (.polygon q)) = some (.polygon (orient q)) := by
  simp [fix_cw_to_ccw, fixGuard, fixBody, h, orientE, Except.map]

theorem fix_multiPolygon (ps : List Poly) (h : (Geometry.multiPolygon ps).is_empty = false) :
    fix_cw_to_ccw (some (.multiPolygon ps)) = some (.multiPolygon (ps.map orient)) := by
  simp [fix_cw_to_ccw, fixGuard, fixBody, h, mapOrient_ok, Except.map]

theorem fix_pass_point (c : Coord) :
    fix_cw_to_ccw (some (.point c)) = some (.point c) := rfl

theorem fix_pass_lineString (cs : List Coord) :
    fix_cw_to_ccw (some (.lineString cs)) = some (.lineString cs) := by
  cases h : (Geometry.lineString cs).is_empty <;>
    simp [fix_cw_to_ccw, fixGuard, fixBody, h]

theorem fix_pass_multiPoint (cs : List Coord) :
    fix_cw_to_ccw (some (.multiPoint cs)) = some (.multiPoint cs) := by
  cases h : (Geometry.multiPoint cs).is_empty <;>
    simp [fix_cw_to_ccw, fixGuard, fixBody, h]

theorem fix_pass_multiLineString (ls : List (List Coord)) :
    fix_cw_to_ccw (some (.multiLineString ls)) = some (.multiLineString ls) := by
  cases h : (Geometry.multiLineString ls).is_empty <;>
    simp [fix_cw_to_ccw, fixGuard, fixBody, h]

theorem fix_pass_collection (gs : List Geometry) :
    fix_cw_to_ccw (some (.geometryCollection gs)) = some (.geometryCollection gs) := by
  cases h : (Geometry.geometryCollection gs).is_empty <;>
    simp [fix_cw_to_ccw, fixGuard, fixBody, h]

/-! ## Structure preservation of orient -/

theorem orient_exterior_length (q : Poly) :
    (orient q).exterior.length = q.exterior.length := by
  simp [orient, apply_ite List.length]

theorem orient_interiors_length (q : Poly) :
    (orient q).interiors.length = q.interiors.length := by
  simp [orient]

theorem polyVertexCount_orient (q : Poly) :
    polyVertexCount (orient q) = polyVertexCount q := by
  simp [polyVertexCount, orient, apply_ite List.length, List.map_map, Function.comp_def]

/-! ## Structure preservation of rounding -/

theorem polyVertexCount_round (p : ℕ) (q : Poly) :
    polyVertexCount (roundPoly p q) = polyVertexCount q := by
  simp [polyVertexCount, roundPoly, List.map_map, Function.comp_def]

mutual

theorem vertexCount_roundGeom (p : ℕ) : ∀ g : Geometry,
    (roundGeom p g).vertexCount = g.vertexCount
  | .point c => by simp [roundGeom, Geometry.vertexCount]
  | .lineString cs => by simp [roundGeom, Geometry.vertexCount]
  | .polygon q => by simp [roundGeom, Geometry.vertexCount, polyVertexCount_round]
  | .multiPoint cs => by simp [roundGeom, Geometry.vertexCount]
  | .multiLineString ls => by
      simp [roundGeom, Geometry.vertexCount, List.map_map, Function.comp_def]
  | .multiPolygon qs => by
      simp [roundGeom, Geometry.vertexCount, List.map_map, Function.comp_def,
        polyVertexCount_round]
  | .geometryCollection gs => by
      simp [roundGeom, Geometry.vertexCount, vertexCount_roundGeomL p gs]

theorem vertexCount_roundGeomL (p : ℕ) : ∀ gs : List Geometry,
    Geometry.vertexCountL (roundGeomL p gs) = Geometry.vertexCountL gs
  | [] => by simp [roundGeomL, Geometry.vertexCountL]
  | g :: gs => by
      simp [roundGeomL, Geometry.vertexCountL, vertexCount_roundGeom p g,
        vertexCount_roundGeomL p gs]

end

mutual

theorem ringCount_roundGeom (p : ℕ) : ∀ g : Geometry,
    (roundGeom p g).ringCount = g.ringCount
  | .point c => by simp [roundGeom, Geometry.ringCount]
  | .lineString cs => by simp [roundGeom, Geometry.ringCount]
  | .polygon q => by simp [roundGeom, Geometry.ringCount, roundPoly]
  | .multiPoint cs => by simp [roundGeom, Geometry.ringCount]
  | .multiLineString ls => by simp [roundGeom, Geometry.ringCount]
  | .multiPolygon qs => by
      simp [roundGeom, Geometry.ringCount, List.map_map, Function.comp_def, roundPoly]
  | .geometryCollection gs => by
      simp [roundGeom, Geometry.ringCount, ringCount_roundGeomL p gs]

theorem ringCount_roundGeomL (p : ℕ) : ∀ gs : List Geometry,
    Geometry.ringCountL (roundGeomL p gs) = Geometry.ringCountL gs
  | [] => by simp [roundGeomL, Geometry.ringCountL]
  | g :: gs => by
      simp [roundGeomL, Geometry.ringCountL, ringCount_roundGeom p g,
        ringCount_roundGeomL p gs]

end

theorem fix_components (g : Option Geometry) :
    tagOf (fix_cw_to_ccw g) = tagOf g ∧
      vertexCountO (fix_cw_to_ccw g) = vertexCountO g ∧
      ringCountO (fix_cw_to_ccw g) = ringCountO g := by
  cases g with
  | none => exact ⟨rfl, rfl, rfl⟩
  | some g0 =>
    cases g0 with
    | point c => rw [fix_pass_point]; exact ⟨rfl, rfl, rfl⟩
    | lineString cs => rw [fix_pass_lineString]; exact ⟨rfl, rfl, rfl⟩
    | multiPoint cs => rw [fix_pass_multiPoint]; exact ⟨rfl, rfl, rfl⟩
    | multiLineString ls => rw [fix_pass_multiLineString]; exact ⟨rfl, rfl, rfl⟩
    | geometryCollection gs => rw [fix_pass_collection]; exact ⟨rfl, rfl, rfl⟩
    | polygon q =>
      cases he : (Geometry.polygon q).is_empty with
      | true => rw [fix_empty _ he]; exact ⟨rfl, rfl, rfl⟩
      | false =>
        rw [fix_polygon q he]
        refine ⟨rfl, ?_, ?_⟩
        · simp [vertexCountO, Geometry.vertexCount, polyVertexCount_orient]
        · simp [ringCountO, Geometry.ringCount, orient_interiors_length]
    | multiPolygon ps =>
      cases he : (Geometry.multiPolygon ps).is_empty with
      | true => rw [fix_empty _ he]; exact ⟨rfl, rfl, rfl⟩
      | false =>
        rw [fix_multiPolygon ps he]
        refine ⟨rfl, ?_, ?_⟩
        · simp [vertexCountO, Geometry.vertexCount, List.map_map, Function.comp_def,
            polyVertexCount_orient]
        · simp [ringCountO, Geometry.ringCount, List.map_map, Function.comp_def,
            orient_interiors_length]

/-- C7: neither transform changes the variant tag, the total vertex count,
or the ring count of a geometry. -/
theorem claim7_structure (g : Option Geometry) (p : ℕ) :
    tagOf (round_coordinates g p) = tagOf g ∧
      vertexCountO (round_coordinates g p) = vertexCountO g ∧
      ringCountO (round_coordinates g p) = ringCountO g ∧
      tagOf (fix_cw_to_ccw g) = tagOf g ∧
      vertexCountO (fix_cw_to_ccw g) = vertexCountO g ∧
      ringCountO (fix_cw_to_ccw g) = ringCountO g := by
  obtain ⟨h1, h2, h3⟩ := fix_components g
  refine ⟨?_, ?_, ?_, h1, h2, h3⟩
  · cases g with
    | none => rfl
    | some g0 => cases g0 <;> rfl
  · cases g with
    | none => rfl
    | some g0 => simp [round_coordinates, vertexCountO, vertexCount_roundGeom]
  · cases g with
    | none => rfl
    | some g0 => simp [round_coordinates, ringCountO, ringCount_roundGeom]

/-! ## C2: GeometryCollection is not recursed into -/

theorem cwRing_not_ccw : is_ccw cwRing = false := by
  simp [is_ccw, cwRing, signed_area, shoelace, cross]
  norm_num

/-- C2 counterexample: a GeometryCollection holding one clockwise Polygon
comes out of `fix_cw_to_ccw` unchanged, its member still clockwise. -/
theorem claim2_collection_cex :
    fix_cw_to_ccw (some gcCW) = some gcCW ∧ is_ccw cwRing = false :=
  ⟨rfl, cwRing_not_ccw⟩

/-- C2 amended: `fix_cw_to_ccw` returns every GeometryCollection unchanged;
its polygonal members are not reoriented. -/
theorem claim2_collection_pass (gs : List Geometry) :
    fix_cw_to_ccw (some (.geometryCollection gs)) = some (.geometryCollection gs) := by
  cases h : (Geometry.geometryCollection gs).is_empty <;>
    simp [fix_cw_to_ccw, fixGuard, fixBody, h]

/-! ## C3: no precision validation exists -/

theorem roundOrd_eq_self (p : ℕ) (x : ℚ) (z : ℤ) (h : x * 10 ^ p = (z : ℚ)) :
    roundOrd p x = x := by
  have h10 : (10 : ℚ) ^ p ≠ 0 := by positivity
  rw [roundOrd, h, rnd_intCast, div_eq_iff h10]
  exact h.symm

/-- C3 counterexample: at the out-of-range precision 16, `round_coordinates`
does not fail validation before transforming; it returns rounded output. -/
theorem claim3_no_reject_cex : round_coordinates (some ptB) 16 = some ptB := by
  have hx : (106123456789 / 1000000000 : ℚ) * 10 ^ 16 =
      ((1061234567890000000 : ℤ) : ℚ) := by norm_num
  have hy : (-6987654321 / 1000000000 : ℚ) * 10 ^ 16 =
      ((-69876543210000000 : ℤ) : ℚ) := by norm_num
  simp [round_coordinates, ptB, roundGeom, roundCoord,
    roundOrd_eq_self _ _ _ hx, roundOrd_eq_self _ _ _ hy]

/-- C3 amended: out-of-range precisions are only prevented by the slider's
bounds; `round_coordinates` itself performs no validation and produces
rounded output at every precision. -/
theorem claim3_slider_bounds :
    (∀ c : ℤ, 1 ≤ precision_slider c ∧ precision_slider c ≤ 15) ∧
      ∀ (g : Geometry) (p : ℕ), round_coordinates (some g) p = some (roundGeom p g) := by
  refine ⟨fun c => ⟨le_max_left 1 _, ?_⟩, fun g p => rfl⟩
  exact max_le (by norm_num) (min_le_left _ _)

/-! ## Signed area under ring reversal -/

theorem shoelace_cons₂ (a b : Coord) (t : List Coord) :
    shoelace (a :: b :: t) = cross a b + shoelace (b :: t) := rfl

theorem shoelace_concat (l : List Coord) (x y : Coord) :
    shoelace (l ++ [x, y]) = shoelace (l ++ [x]) + cross x y := by
  induction l with
  | nil => simp [shoelace]
  | cons a l ih =>
    cases l with
    | nil => simp [shoelace]
    | cons b l' =>
      simp only [List.cons_append] at ih ⊢
      rw [shoelace_cons₂, shoelace_cons₂, ih]
      ring

theorem shoelace_rev_aux : ∀ (l : List Coord) (a : Coord),
    shoelace (l.reverse ++ [a]) = -shoelace (a :: l)
  | [], a => by simp [shoelace]
  | b :: l, a => by
    have ih := shoelace_rev_aux l b
    have h : (b :: l).reverse ++ [a] = l.reverse ++ [b, a] := by simp
    rw [h, shoelace_concat, ih, shoelace_cons₂]
    simp [cross]

theorem shoelace_reverse (l : List Coord) : shoelace l.reverse = -shoelace l := by
  cases l with
  | nil => simp [shoelace]
  | cons a l =>
    have h : (a :: l).reverse = l.reverse ++ [a] := by simp
    rw [h, shoelace_rev_aux]

theorem signed_area_reverse (r : Ring) : signed_area r.reverse = -signed_area r := by
  simp [signed_area, shoelace_reverse, neg_div]

/-! ## C4: orientation postcondition -/

theorem is_ccw_orient (q : Poly) (h : signed_area q.exterior ≠ 0) :
    is_ccw (orient q).exterior = true := by
  rcases lt_or_gt_of_ne h with hneg | hpos
  · have hn : ¬(0 ≤ signed_area q.exterior) := not_le.mpr hneg
    simp [orient, hn, is_ccw, signed_area_reverse]
    linarith
  · simp [orient, is_ccw, le_of_lt hpos]
    exact hpos

theorem ne_nil_of_signed_area (r : Ring) (h : signed_area r ≠ 0) : r.isEmpty = false := by
  cases r with
  | nil => simp [signed_area, shoelace] at h
  | cons a t => simp

theorem foldl_max_mem (a : Poly) (l : List Poly) :
    l.foldl (fun best q => if best.area < q.area then q else best) a ∈ a :: l := by
  induction l generalizing a with
  | nil => simp
  | cons q l ih =>
    simp only [List.foldl_cons]
    have h := ih (if a.area < q.area then q else a)
    rcases List.mem_cons.mp h with h1 | h1
    · rw [h1]
      by_cases hc : a.area < q.area <;> simp [hc]
    · exact List.mem_cons_of_mem _ (List.mem_cons_of_mem _ h1)

theorem maxByArea_mem (ps : List Poly) (p : Poly) (h : maxByArea ps = some p) : p ∈ ps := by
  cases ps with
  | nil => simp [maxByArea] at h
  | cons q l =>
    simp only [maxByArea, Option.some_inj] at h
    rw [← h]
    exact foldl_max_mem q l

/-- C4: after `fix_cw_to_ccw`, a Polygon or MultiPolygon whose exterior
ring(s) have nonzero signed area classifies counterclockwise. -/
theorem claim4_fix_classify_ccw (g : Geometry) (h : nondegenerate g = true) :
    classify (fix_cw_to_ccw (some g)) = some Orientation.ccw := by
  cases g with
  | point c => simp [nondegenerate] at h
  | lineString cs => simp [nondegenerate] at h
  | multiPoint cs => simp [nondegenerate] at h
  | multiLineString ls => simp [nondegenerate] at h
  | geometryCollection gs => simp [nondegenerate] at h
  | polygon q =>
    have hne : signed_area q.exterior ≠ 0 := by simpa [nondegenerate] using h
    have hemp : (Geometry.polygon q).is_empty = false := by
      simpa [Geometry.is_empty] using ne_nil_of_signed_area _ hne
    rw [fix_polygon q hemp]
    simp [classify, is_ccw_orient q hne]
  | multiPolygon ps =>
    simp only [nondegenerate, Bool.and_eq_true, Bool.not_eq_true',
      List.all_eq_true, decide_eq_true_eq] at h
    obtain ⟨hne, hall⟩ := h
    obtain ⟨q0, t, rfl⟩ : ∃ q0 t, ps = q0 :: t := by
      cases ps with
      | nil => simp at hne
      | cons q0 t => exact ⟨q0, t, rfl⟩
    have h0 : q0.exterior.isEmpty = false :=
      ne_nil_of_signed_area _ (hall q0 (by simp))
    have hemp : (Geometry.multiPolygon (q0 :: t)).is_empty = false := by
      simp [Geometry.is_empty, h0]
    rw [fix_multiPolygon _ hemp]
    cases hm : maxByArea ((q0 :: t).map orient) with
    | none => simp [maxByArea] at hm
    | some p' =>
      obtain ⟨q, hq, rfl⟩ := List.mem_map.mp (maxByArea_mem _ _ hm)
      rw [List.map_cons] at hm
      simp [classify, hm, is_ccw_orient q (hall q hq)]

theorem nondeg_cwPoly : nondegenerate (Geometry.polygon ⟨cwRing, []⟩) = true := by
  simp [nondegenerate, cwRing, signed_area, shoelace, cross]
  norm_num

/-- C4 instantiated at the clockwise Scenario A polygon. -/
theorem claim4_fix_classify_ccw_case :
    nondegenerate (Geometry.polygon ⟨cwRing, []⟩) = true ∧
      classify (fix_cw_to_ccw (some (Geometry.polygon ⟨cwRing, []⟩))) =
        some Orientation.ccw :=
  ⟨nondeg_cwPoly, claim4_fix_classify_ccw _ nondeg_cwPoly⟩

/-! ## C8: largest member decides MultiPolygon classification -/

/-- C8: for a MultiPolygon whose member sequence yields a largest-area
member `p`, the orientation audit classifies it ccw exactly when `p`'s
exterior ring is counterclockwise, whatever the other members' winding. -/
theorem claim8_largest_decides (ps : List Poly) (p : Poly) (h : maxByArea ps = some p) :
    classify (some (.multiPolygon ps)) = some Orientation.ccw ↔
      is_ccw p.exterior = true := by
  simp only [classify, h]
  cases hc : is_ccw p.exterior <;> simp [hc]

theorem maxByArea_mixedMP : maxByArea mixedMP = some ⟨bigCCW, []⟩ := by
  have hlt : ¬((⟨bigCCW, []⟩ : Poly).area < (⟨smallCW, []⟩ : Poly).area) := by
    simp [Poly.area, ringArea, signed_area, shoelace, cross, bigCCW, smallCW]
    norm_num
  simp [maxByArea, mixedMP, hlt]

/-- C8 instantiated at Scenario C's mixed MultiPolygon: the large CCW member
decides, the small CW member is ignored. -/
theorem claim8_largest_decides_case :
    maxByArea mixedMP = some ⟨bigCCW, []⟩ ∧
      (classify (some (.multiPolygon mixedMP)) = some Orientation.ccw ↔
        is_ccw bigCCW = true) :=
  ⟨maxByArea_mixedMP, claim8_largest_decides mixedMP _ maxByArea_mixedMP⟩

/-! ## C9: the orientation-fix failure policy -/

/-- C9: whenever the body of `fix_cw_to_ccw` raises (for any behaviour `o`
of the orientation primitive), the `except` clause returns the original
geometry unmodified, and the failure does not escape the call. -/
theorem claim9_fix_guard (o : Poly → Except String Poly) (g : Option Geometry)
    (msg : String) (h : fixBody o g = .error msg) : fixGuard o g = g := by
  simp [fixGuard, h]

/-- C9 instantiated: an orientation primitive that always raises, applied to
the Scenario A polygon; the wrapper returns the polygon unchanged. -/
theorem claim9_fix_guard_case :
    fixBody (fun _ => .error "boom") (some (Geometry.polygon ⟨cwRing, []⟩)) =
        .error "boom" ∧
      fixGuard (fun _ => .error "boom") (some (Geometry.polygon ⟨cwRing, []⟩)) =
        some (Geometry.polygon ⟨cwRing, []⟩) :=
  ⟨rfl, claim9_fix_guard _ _ "boom" rfl⟩

/-! ## C10: the orientation audit's tallies -/

theorem tally_sum (s : OrientationStats) (o : Orientation) :
    (tally s o).ccw + (tally s o).cw + (tally s o).other =
      s.ccw + s.cw + s.other + 1 := by
  cases o <;> simp [tally] <;> omega

theorem classify_isSome (g : Option Geometry) (h : auditable g = true) :
    (classify g).isSome = true := by
  match g with
  | none => rfl
  | some (.point _) => rfl
  | some (.lineString _) => rfl
  | some (.multiPoint _) => rfl
  | some (.multiLineString _) => rfl
  | some (.geometryCollection _) => rfl
  | some (.polygon q) => rfl
  | some (.multiPolygon ps) =>
    cases ps with
    | nil => simp [auditable, Geometry.is_empty] at h
    | cons q t => simp [classify, maxByArea]

theorem statsLoop_sum : ∀ (gs : List (Option Geometry)) (s : OrientationStats),
    (∀ g ∈ gs, auditable g = true) →
    ∃ t, statsLoop s gs = some t ∧
      t.ccw + t.cw + t.other = s.ccw + s.cw + s.other + gs.length
  | [], s, _ => ⟨s, rfl, by simp⟩
  | g :: gs, s, h => by
    have hg := classify_isSome g (h g (by simp))
    cases hc : classify g with
    | none => rw [hc] at hg; simp at hg
    | some o =>
      obtain ⟨t, ht, hsum⟩ :=
        statsLoop_sum gs (tally s o) (fun x hx => h x (by simp [hx]))
      refine ⟨t, ?_, ?_⟩
      · simp [statsLoop, hc, ht]
      · rw [hsum, tally_sum]
        simp
        omega

/-- C10: a Null geometry classifies as other, and over a column of Null,
non-polygonal, or non-empty polygonal geometries the audit succeeds with
ccw + cw + other equal to the number of records. -/
theorem claim10_stats_total (gs : List (Option Geometry))
    (h : ∀ g ∈ gs, auditable g = true) :
    (∀ g : Option Geometry, tagOf g ≠ GeomTag.polygon →
        tagOf g ≠ GeomTag.multiPolygon → classify g = some Orientation.other) ∧
      ∃ s, check_orientation_stats gs = some s ∧
        s.ccw + s.cw + s.other = gs.length := by
  refine ⟨?_, ?_⟩
  · intro g h1 h2
    match g with
    | none => rfl
    | some (.point _) => rfl
    | some (.lineString _) => rfl
    | some (.multiPoint _) => rfl
    | some (.multiLineString _) => rfl
    | some (.geometryCollection _) => rfl
    | some (.polygon _) => exact absurd rfl h1
    | some (.multiPolygon _) => exact absurd rfl h2
  · obtain ⟨s, hs, hsum⟩ := statsLoop_sum gs ⟨0, 0, 0⟩ h
    exact ⟨s, hs, by simpa using hsum⟩

/-- C10 instantiated at a column holding a Null, a line, a polygon and a
multipolygon. -/
theorem claim10_stats_total_case :
    (∀ g ∈ auditGs, auditable g = true) ∧
      ((∀ g : Option Geometry, tagOf g ≠ GeomTag.polygon →
          tagOf g ≠ GeomTag.multiPolygon → classify g = some Orientation.other) ∧
        ∃ s, check_orientation_stats auditGs = some s ∧
          s.ccw + s.cw + s.other = auditGs.length) :=
  ⟨by decide, claim10_stats_total auditGs (by decide)⟩

end RoundedRHR
